import Mathlib

/-!
Verification development for the recursive Taskfile reader
(`taskfile/reader.go` of go-task): a shallow embedding of the
graph-building reader, its remote load-and-trust workflow, and the
document graph operations it relies on, together with theorems checking
the natural-language specification against the embedded code.

The reader itself (`Reader.include`, `Reader.readNode`, `Reader.loadNode`)
is translated directly from the source.  Collaborators that live outside
the provided source file (the directed-graph library, the node
abstraction, the remote cache, the templater) are modelled from the
specification's interface contracts; each such definition carries a
`Modelled from the spec` doc comment.

Concurrency note: the Go reader fans out over includes with an
errgroup whose `Wait` returns the first error while every branch runs to
completion.  The embedding processes branches in the deterministic
iteration order of the include map, threading the shared state (graph +
effect log) through each branch and keeping the first error — the
sequential semantics of the same branch bodies.
-/

namespace GoTask

/-- Effect-relevant error values of the reader, one constructor per
distinguishable Go error used by `reader.go`. -/
inductive TaskErr where
  | vertexExists
  | edgeNotFound
  | edgeExists
  | edgeCreatesCycle
  | cycle (source destination : String)
  | cacheNotFound (uri : String)
  | networkTimeout (uri : String) (timeout : Nat) (checkedCache : Bool)
  | notTrusted (uri : String)
  | versionCheck (uri : String)
  | decode (uri : String)
  | invalid (uri : String)
  | notExist
  | templErr (msg : String)
  | nodeErr (msg : String)
  | noFuel
  | other (msg : String)
deriving DecidableEq, Repr

/-- Raw content of a read document: the bytes and the directory the
document is considered to live in (`source` struct of the node layer). -/
structure Source where
  fileContent : String
  fileDirectory : String
deriving DecidableEq, Repr

/-- Modelled from the spec: the Node abstraction (local path, remote URL,
or a handle onto a cached copy), whose `Location()` is the canonical
identity string used as the graph vertex key.  The node implementations
are outside the provided source file. -/
inductive Node where
  | FileNode (location : String)
  | RemoteNode (location : String)
  | CacheNode (location : String) (src : Source)
deriving DecidableEq, Repr

/-- Canonical identity of a node (`Node.Location()`). -/
def Node.location : Node → String
  | .FileNode l => l
  | .RemoteNode l => l
  | .CacheNode l _ => l

/-- The type test `n.(*RemoteNode)` performed by `loadNode`. -/
def Node.isRemote : Node → Bool
  | .RemoteNode _ => true
  | _ => false

/-- Origin stamp of a task (`ast.Task.Location`): originating Taskfile
URI and originating directory. -/
structure TaskLocation where
  taskfile : String
  taskfileDir : String
deriving DecidableEq, Repr

/-- A task definition, reduced to the field the reader touches: its
origin stamp. -/
structure Task where
  location : TaskLocation
deriving DecidableEq, Repr

/-- An include directive (`ast.Include`): namespace, target-location and
target-directory templates, flags, aliases and private variables. -/
structure Include where
  nspace : String
  taskfile : String
  dir : String
  optional : Bool
  internal : Bool
  flatten : Bool
  aliases : List String
  advancedImport : Bool
  vars : List (String × String)
deriving DecidableEq, Repr

/-- A parsed Taskfile (`ast.Taskfile`): schema version, variables, the
ordered task map (entries may be nil in Go, hence `Option Task`), the
ordered include map, and its own location stamp. -/
structure Taskfile where
  version : Option String
  vars : List (String × String)
  tasks : List (String × Option Task)
  includes : List (String × Include)
  location : String
deriving DecidableEq, Repr

/-- A graph vertex (`ast.TaskfileVertex`): the location URI and the
Taskfile, absent while the document is being loaded. -/
structure TaskfileVertex where
  uri : String
  taskfile : Option Taskfile
deriving DecidableEq, Repr

/-- A directed edge of the document graph, carrying the ordered list of
Include specs that justify it and a weight equal to that list's length. -/
structure TaskfileEdge where
  src : String
  dst : String
  data : List Include
  weight : Nat
deriving DecidableEq, Repr

/-- The document graph (`ast.TaskfileGraph`): vertices keyed by location
URI, edges keyed by (src, dst). -/
structure TaskfileGraph where
  vertices : List TaskfileVertex
  edges : List TaskfileEdge
deriving DecidableEq, Repr

/-- Key test for the edge of a (src, dst) pair. -/
def edgeKey (src dst : String) (e : TaskfileEdge) : Bool :=
  e.src == src && e.dst == dst

/-- Successor locations of a vertex along directed edges. -/
def succs (edges : List TaskfileEdge) (v : String) : List String :=
  (edges.filter (fun e => e.src == v)).map (fun e => e.dst)

/-- Fuel-bounded directed reachability over an edge list. -/
def reachB (edges : List TaskfileEdge) : Nat → String → String → Bool
  | 0, a, b => a == b
  | fuel + 1, a, b => a == b || (succs edges a).any (fun c => reachB edges fuel c b)

/-- Modelled from the spec: the graph library's cycle check — adding the
edge (src, dst) closes a cycle exactly when dst already reaches src. -/
def createsCycle (edges : List TaskfileEdge) (src dst : String) : Bool :=
  reachB edges edges.length dst src

/-- Whether a vertex with the given URI exists. -/
def hasVertex (g : TaskfileGraph) (uri : String) : Bool :=
  g.vertices.any (fun v => v.uri == uri)

/-- Modelled from the spec: `AddVertex` fails distinguishably when the
vertex already exists (the claim/deduplication signal). -/
def TaskfileGraph.AddVertex (g : TaskfileGraph) (v : TaskfileVertex) :
    Except TaskErr TaskfileGraph :=
  if g.vertices.any (fun w => w.uri == v.uri) then .error .vertexExists
  else .ok { g with vertices := g.vertices ++ [v] }

/-- Modelled from the spec: `Edge` fetches the edge for a (src, dst)
pair, failing with an edge-not-found error when absent. -/
def TaskfileGraph.Edge (g : TaskfileGraph) (src dst : String) :
    Except TaskErr TaskfileEdge :=
  match g.edges.find? (edgeKey src dst) with
  | some e => .ok e
  | none => .error .edgeNotFound

/-- Modelled from the spec: `AddEdge` on a cycle-preventing directed
graph — fails when the edge already exists, fails with the
edge-creates-cycle error when insertion would close a cycle, and
otherwise appends the new edge. -/
def TaskfileGraph.AddEdge (g : TaskfileGraph) (src dst : String)
    (data : List Include) (weight : Nat) : Except TaskErr TaskfileGraph :=
  if g.edges.any (edgeKey src dst) then .error .edgeExists
  else if createsCycle g.edges src dst then .error .edgeCreatesCycle
  else .ok { g with edges := g.edges ++ [{ src := src, dst := dst, data := data, weight := weight }] }

/-- Modelled from the spec: `UpdateEdge` rewrites the data and weight of
an existing edge, failing with edge-not-found when the edge is absent. -/
def TaskfileGraph.UpdateEdge (g : TaskfileGraph) (src dst : String)
    (data : List Include) (weight : Nat) : Except TaskErr TaskfileGraph :=
  if g.edges.any (edgeKey src dst) then
    .ok { g with edges := g.edges.map (fun e =>
      if edgeKey src dst e then { e with data := data, weight := weight } else e) }
  else .error .edgeNotFound

/-- Storing the parsed Taskfile into the claimed vertex
(`vertex.Taskfile = ...` through the shared vertex pointer). -/
def TaskfileGraph.setTaskfile (g : TaskfileGraph) (uri : String) (tf : Taskfile) :
    TaskfileGraph :=
  { g with vertices := g.vertices.map (fun v =>
      if v.uri == uri then { v with taskfile := some tf } else v) }

/-- Modelled from the spec: a remote cache entry stores the last-fetched
content and its checksum digest, keyed by source identity. -/
structure CacheEntry where
  content : String
  checksum : String
deriving DecidableEq, Repr

/-- Modelled from the spec: the persistent remote cache. -/
structure Cache where
  entries : List (String × CacheEntry)
deriving DecidableEq, Repr

/-- Modelled from the spec: `cache.read` returns a node handle onto the
cached copy for a source identity, or a not-exist error. -/
def cacheRead (c : Cache) (loc : String) : Except TaskErr Node :=
  match c.entries.find? (fun p => p.1 == loc) with
  | some p => .ok (.CacheNode loc { fileContent := p.2.content, fileDirectory := "" })
  | none => .error .notExist

/-- Modelled from the spec: `cache.readChecksum` returns the recorded
checksum for a source identity, or the empty string when none exists. -/
def cacheReadChecksum (c : Cache) (loc : String) : String :=
  match c.entries.find? (fun p => p.1 == loc) with
  | some p => p.2.checksum
  | none => ""

/-- Modelled from the spec: `cache.write` persists the fetched content
and its checksum, replacing any prior entry for that source, and returns
a node handle onto the cached copy. -/
def cacheWrite (chk : String → String) (c : Cache) (loc : String) (src : Source) :
    Node × Cache :=
  (.CacheNode loc src,
   { entries := (loc, { content := src.fileContent, checksum := chk src.fileContent }) ::
       c.entries.filter (fun p => p.1 != loc) })

/-- Observable effect log threaded through the reader: network fetch
attempts, checksum computations, issued prompt messages, the locations
passed to `readNode` (loads), successful parse attempts, and the remote
cache state. -/
structure Eff where
  fetches : Nat
  checksums : Nat
  prompts : List String
  loads : List String
  parses : Nat
  cache : Cache
deriving DecidableEq, Repr

/-- Modelled from the spec: the external collaborators the reader calls
into — process environment snapshot, templating substitution, node
resolution and construction, network fetch, raw reads, the YAML schema
parser, the checksum function, and the interactive trust prompt
(true = user accepts). -/
structure Env where
  environ : List (String × String)
  subst : List (String × String) → String → Except TaskErr String
  resolveEntrypoint : Node → String → Except TaskErr String
  resolveDir : Node → String → Except TaskErr String
  newNode : String → String → Node → Except TaskErr Node
  fetch : Node → Except TaskErr Source
  readSrc : Node → Except TaskErr Source
  parse : String → Except TaskErr Taskfile
  chksum : String → String
  promptAccept : String → Bool

/-- Reading a node's content: a cache node yields its stored copy,
other nodes go to the environment. -/
def nodeRead (env : Env) : Node → Except TaskErr Source
  | .CacheNode _ src => .ok src
  | n => env.readSrc n

/-- Modelled from the spec: the templater's best-effort cache — variables
plus the first substitution error, observable after the fact. -/
structure TemplCache where
  vars : List (String × String)
  err : Option TaskErr

/-- Modelled from the spec: `templater.Replace` substitutes one template
from the shared context, recording (not raising) a substitution error. -/
def templReplace (env : Env) (s : String) (c : TemplCache) : String × TemplCache :=
  match env.subst c.vars s with
  | .ok r => (r, c)
  | .error e => ("", { c with err := c.err.orElse (fun _ => some e) })

/-- Modelled from the spec: merging the document's own variables over the
process environment, document variables taking precedence. -/
def mergeVars (base upd : List (String × String)) : List (String × String) :=
  base.filter (fun p => (upd.lookup p.1).isNone) ++ upd

/-- The untrusted-source prompt of `loadNode`. -/
def taskfileUntrustedPrompt (loc : String) : String :=
  "The task you are attempting to run depends on the remote Taskfile at " ++ loc ++
  ". Make sure you trust the source of this Taskfile before continuing. Continue?"

/-- The changed-source prompt of `loadNode`. -/
def taskfileChangedPrompt (loc : String) : String :=
  "The Taskfile at " ++ loc ++
  " has changed since you last used it! Make sure you trust the source of this Taskfile before continuing. Continue?"

/-- Reader configuration (the flag fields of the Go `Reader`). -/
structure Reader where
  insecure : Bool
  download : Bool
  offline : Bool
  timeout : Nat
  tempDir : String
deriving DecidableEq, Repr

/-- The remote load-and-trust workflow (`Reader.loadNode`): local nodes
pass through; offline mode reads only the cache; a fetch timeout falls
back to the cache unless a download was forced; a successful fetch is
checksum-compared against the cache and gated by a trust prompt, the
accepted content being cached. -/
def Reader.loadNode (env : Env) (r : Reader) (eff : Eff) (n : Node) :
    Eff × Except TaskErr Node :=
  if n.isRemote then
    if r.offline then
      match cacheRead eff.cache n.location with
      | .error .notExist => (eff, .error (.cacheNotFound n.location))
      | .error e => (eff, .error e)
      | .ok cached => (eff, .ok cached)
    else
      let eff := { eff with fetches := eff.fetches + 1 }
      match env.fetch n with
      | .error (.networkTimeout _ t _) =>
        if r.download then
          (eff, .error (.networkTimeout n.location t false))
        else
          match cacheRead eff.cache n.location with
          | .error .notExist => (eff, .error (.networkTimeout n.location r.timeout true))
          | .error e => (eff, .error e)
          | .ok cached => (eff, .ok cached)
      | .error e => (eff, .error e)
      | .ok src =>
        let cachedChecksum := cacheReadChecksum eff.cache n.location
        let eff := { eff with checksums := eff.checksums + 1 }
        let checksum := env.chksum src.fileContent
        let pr : Option String :=
          if cachedChecksum == "" then some (taskfileUntrustedPrompt n.location)
          else if checksum != cachedChecksum then some (taskfileChangedPrompt n.location)
          else none
        match pr with
        | none => (eff, .ok n)
        | some msg =>
          let eff := { eff with prompts := eff.prompts ++ [msg] }
          if env.promptAccept msg then
            let wr := cacheWrite env.chksum eff.cache n.location src
            ({ eff with cache := wr.2 }, .ok wr.1)
          else
            (eff, .error (.notTrusted n.location))
  else
    (eff, .ok n)

/-- Stamping one task's origin (`readNode`'s per-task loop body): each
location field is written only when currently empty.  A nil task entry
stays nil — the fresh `&ast.Task{}` the Go loop stamps is a local value
never stored back into the map. -/
def stampTask (tfLoc dir : String) : Option Task → Option Task
  | none => none
  | some t =>
    let t := if t.location.taskfile = "" then
      { t with location := { t.location with taskfile := tfLoc } } else t
    let t := if t.location.taskfileDir = "" then
      { t with location := { t.location with taskfileDir := dir } } else t
    some t

/-- Setting the Taskfile's own location and stamping every task
(`readNode` lines after the version check). -/
def stampTaskfile (tf : Taskfile) (loc dir : String) : Taskfile :=
  { tf with
    location := loc,
    tasks := tf.tasks.map (fun p => (p.1, stampTask loc dir p.2)) }

/-- Loading, reading and parsing one document (`Reader.readNode`):
`loadNode`, then the node read, then YAML decoding with error
classification, the schema-version presence check, and origin
stamping. -/
def Reader.readNode (env : Env) (r : Reader) (eff : Eff) (node : Node) :
    Eff × Except TaskErr (Taskfile × Node) :=
  let eff := { eff with loads := eff.loads ++ [node.location] }
  match Reader.loadNode env r eff node with
  | (eff, .error e) => (eff, .error e)
  | (eff, .ok node) =>
    match nodeRead env node with
    | .error e => (eff, .error e)
    | .ok src =>
      let eff := { eff with parses := eff.parses + 1 }
      match env.parse src.fileContent with
      | .error (.decode _) => (eff, .error (.decode node.location))
      | .error _ => (eff, .error (.invalid node.location))
      | .ok tf =>
        if tf.version.isNone then (eff, .error (.versionCheck node.location))
        else
          (eff, .ok (stampTaskfile tf node.location src.fileDirectory, node))

/-- The shared mutable state of one resolution run: the document graph
and the effect log. -/
structure RState where
  graph : TaskfileGraph
  eff : Eff
deriving DecidableEq, Repr

/-- Recording an edge for (src, dst) carrying one Include (`include`
lines 146–173): insert a fresh edge when none exists, otherwise merge by
appending to the existing Include list with the weight set to the new
list's length; a cycle rejection from the graph becomes the dedicated
cycle error naming both endpoints. -/
def recordEdge (g : TaskfileGraph) (src dst : String) (inc : Include) :
    TaskfileGraph × Except TaskErr Unit :=
  match g.Edge src dst with
  | .error .edgeNotFound =>
    match g.AddEdge src dst [inc] 1 with
    | .error .edgeCreatesCycle => (g, .error (.cycle src dst))
    | .error e => (g, .error e)
    | .ok g2 => (g2, .ok ())
  | .error e => (g, .error e)
  | .ok e =>
    let edgeData := e.data ++ [inc]
    match g.UpdateEdge src dst edgeData edgeData.length with
    | .error .edgeCreatesCycle => (g, .error (.cycle src dst))
    | .error e2 => (g, .error e2)
    | .ok g2 => (g2, .ok ())

/-- Keeping the first error of the joined include branches, the
semantics of `errgroup.Wait`. -/
def firstErr (acc res : Except TaskErr Unit) : Except TaskErr Unit :=
  match acc with
  | .error e => .error e
  | .ok _ => res

/-- The three mutually recursive activities of `Reader.include`: the
include procedure on a node, the loop over a document's includes, and the
body of one include branch. -/
inductive Call where
  | inc (node : Node)
  | branches (node : Node) (tf : Taskfile) (incs : List (String × Include))
      (acc : Except TaskErr Unit)
  | branch (node : Node) (tf : Taskfile) (inc : Include)

/-- Fuel-indexed interpreter of `Reader.include` (every recursive call
consumes one unit of fuel, so recursion is structural):
`.inc` claims a vertex for the node's location (returning success
immediately when it already exists), reads and parses the document,
stores it into the vertex and walks the includes; `.branches` runs each
branch in order, joining results with the first error; `.branch`
substitutes the include's templates over environment-plus-document
variables on a private copy, resolves the entrypoint and directory,
constructs the child node (an optional include suppressing exactly a
construction failure), recurses, and records the edge. -/
def runCall (env : Env) (r : Reader) : Nat → Call → RState → RState × Except TaskErr Unit
  | 0, _, st => (st, .error .noFuel)
  | fuel + 1, c, st =>
    match c with
    | .inc node =>
      let vertex : TaskfileVertex := { uri := node.location, taskfile := none }
      match st.graph.AddVertex vertex with
      | .error .vertexExists => (st, .ok ())
      | .error e => (st, .error e)
      | .ok g =>
        let uri := node.location
        match Reader.readNode env r st.eff node with
        | (eff, .error e) => ({ graph := g, eff := eff }, .error e)
        | (eff, .ok (tf, node2)) =>
          runCall env r fuel (.branches node2 tf tf.includes (.ok ()))
            { graph := g.setTaskfile uri tf, eff := eff }
    | .branches _ _ [] acc => (st, acc)
    | .branches node tf ((_, inc) :: rest) acc =>
      let step := runCall env r fuel (.branch node tf inc) st
      runCall env r fuel (.branches node tf rest (firstErr acc step.2)) step.1
    | .branch node tf inc =>
      let vars := mergeVars env.environ tf.vars
      let c0 : TemplCache := { vars := vars, err := none }
      let rep1 := templReplace env inc.taskfile c0
      let rep2 := templReplace env inc.dir rep1.2
      let inc1 : Include := { inc with taskfile := rep1.1, dir := rep2.1 }
      match rep2.2.err with
      | some e => (st, .error e)
      | none =>
        match env.resolveEntrypoint node inc1.taskfile with
        | .error e => (st, .error e)
        | .ok entrypoint =>
          match env.resolveDir node inc1.dir with
          | .error e => (st, .error e)
          | .ok dir2 =>
            let inc2 : Include := { inc1 with dir := dir2 }
            match env.newNode entrypoint inc2.dir node with
            | .error e => if inc2.optional then (st, .ok ()) else (st, .error e)
            | .ok includeNode =>
              match runCall env r fuel (.inc includeNode) st with
              | (st2, .error e) => (st2, .error e)
              | (st2, .ok _) =>
                let rec2 := recordEdge st2.graph node.location includeNode.location inc2
                ({ st2 with graph := rec2.1 }, rec2.2)

/-- The recursive include procedure (`Reader.include`). -/
def Reader.include' (env : Env) (r : Reader) (fuel : Nat) (st : RState) (node : Node) :
    RState × Except TaskErr Unit :=
  runCall env r fuel (.inc node) st

/-- One include branch (the goroutine body of `Reader.include`). -/
def Reader.incBranch (env : Env) (r : Reader) (fuel : Nat) (st : RState)
    (node : Node) (tf : Taskfile) (inc : Include) : RState × Except TaskErr Unit :=
  runCall env r fuel (.branch node tf inc) st

/-- The public entry point (`Reader.Read`): run `include` on the root
node over an empty graph and return the graph on success. -/
def Reader.Read (env : Env) (r : Reader) (fuel : Nat) (st : RState) (node : Node) :
    Except TaskErr TaskfileGraph :=
  match Reader.include' env r fuel st node with
  | (_, .error e) => .error e
  | (st2, .ok _) => .ok st2.graph

/-- `loadNode` never touches the load log. -/
lemma loadNode_loads (env : Env) (r : Reader) (eff : Eff) (n : Node) :
    (Reader.loadNode env r eff n).1.loads = eff.loads := by
  simp only [Reader.loadNode]
  repeat' split
  all_goals rfl

/-- `readNode` records exactly its node's location in the load log. -/
lemma readNode_loads (env : Env) (r : Reader) (eff : Eff) (node : Node) :
    (Reader.readNode env r eff node).1.loads = eff.loads ++ [node.location] := by
  have hl := loadNode_loads env r { eff with loads := eff.loads ++ [node.location] } node
  rcases hres : Reader.loadNode env r { eff with loads := eff.loads ++ [node.location] } node
    with ⟨eff2, res⟩
  rw [hres] at hl
  have hl2 : eff2.loads = eff.loads ++ [node.location] := by simpa using hl
  cases res with
  | error e => simp [Reader.readNode, hres, hl2]
  | ok n2 =>
    cases h2 : nodeRead env n2 with
    | error e => simp [Reader.readNode, hres, h2, hl2]
    | ok src =>
      cases h3 : env.parse src.fileContent with
      | error e => cases e <;> simp [Reader.readNode, hres, h2, h3, hl2]
      | ok tf =>
        by_cases h4 : tf.version = none <;>
          simp [Reader.readNode, hres, h2, h3, h4, hl2]

/-- Rewriting the stored Taskfile of matching vertices changes no URI. -/
lemma any_uri_setTask (uri l : String) (tf : Taskfile) (vs : List TaskfileVertex) :
    (vs.map (fun v => if v.uri == uri then { v with taskfile := some tf } else v)).any
      (fun v => v.uri == l) = vs.any (fun v => v.uri == l) := by
  induction vs with
  | nil => rfl
  | cons a vs ih =>
    simp only [List.map_cons, List.any_cons]
    rw [ih]
    by_cases h : a.uri = uri <;> simp [h]

/-- Storing a Taskfile into a vertex changes no vertex URI. -/
lemma hasVertex_setTaskfile (g : TaskfileGraph) (uri : String) (tf : Taskfile)
    (l : String) : hasVertex (g.setTaskfile uri tf) l = hasVertex g l := by
  unfold hasVertex TaskfileGraph.setTaskfile
  simpa using any_uri_setTask uri l tf g.vertices

/-- A successful edge insertion never changes the vertex list. -/
lemma AddEdge_vertices (g : TaskfileGraph) (src dst : String) (d : List Include)
    (w : Nat) (g2 : TaskfileGraph) (h : g.AddEdge src dst d w = .ok g2) :
    g2.vertices = g.vertices := by
  unfold TaskfileGraph.AddEdge at h
  split at h
  · cases h
  · split at h
    · cases h
    · injection h with h2
      rw [← h2]

/-- A successful edge update never changes the vertex list. -/
lemma UpdateEdge_vertices (g : TaskfileGraph) (src dst : String) (d : List Include)
    (w : Nat) (g2 : TaskfileGraph) (h : g.UpdateEdge src dst d w = .ok g2) :
    g2.vertices = g.vertices := by
  unfold TaskfileGraph.UpdateEdge at h
  split at h
  · injection h with h2
    rw [← h2]
  · cases h

/-- The edge step never changes the vertex list. -/
lemma recordEdge_vertices (g : TaskfileGraph) (src dst : String) (inc : Include) :
    (recordEdge g src dst inc).1.vertices = g.vertices := by
  unfold recordEdge
  cases hE : g.Edge src dst with
  | error e =>
    cases e <;> simp only [hE]
    cases hA : g.AddEdge src dst [inc] 1 with
    | error e2 => cases e2 <;> simp [hA]
    | ok g2 => simp [hA, AddEdge_vertices g src dst [inc] 1 g2 hA]
  | ok e =>
    simp only [hE]
    cases hU : g.UpdateEdge src dst (e.data ++ [inc]) (e.data ++ [inc]).length with
    | error e2 => cases e2 <;> simp [hU]
    | ok g2 => simp [hU, UpdateEdge_vertices g src dst (e.data ++ [inc]) (e.data ++ [inc]).length g2 hU]

/-- The edge step preserves vertex existence. -/
lemma hasVertex_recordEdge (g : TaskfileGraph) (src dst : String) (inc : Include)
    (l : String) : hasVertex (recordEdge g src dst inc).1 l = hasVertex g l := by
  unfold hasVertex
  rw [recordEdge_vertices]

/-- Every location in the load log appears at most once and has a
vertex: the at-most-once processing invariant of a run state. -/
def LoadsOnce (st : RState) : Prop :=
  st.eff.loads.Nodup ∧ ∀ l ∈ st.eff.loads, hasVertex st.graph l = true

/-- The interpreter preserves the at-most-once processing invariant:
locations enter the load log only when their vertex has just been
claimed for the first time. -/
lemma runCall_loadsOnce (env : Env) (r : Reader) :
    ∀ (fuel : Nat) (c : Call) (st : RState),
      LoadsOnce st → LoadsOnce (runCall env r fuel c st).1 := by
  intro fuel
  induction fuel with
  | zero => intro c st h; simpa [runCall] using h
  | succ fuel ih =>
    intro c st h
    cases c with
    | inc node =>
      cases hv : st.graph.AddVertex { uri := node.location, taskfile := none } with
      | error e => cases e <;> simpa [runCall, hv] using h
      | ok g =>
        have hnew : st.graph.vertices.any (fun w => w.uri == node.location) = false := by
          by_cases hany : st.graph.vertices.any (fun w => w.uri == node.location) = true
          · simp [TaskfileGraph.AddVertex, hany] at hv
          · simpa using hany
        have hg : { st.graph with
            vertices := st.graph.vertices ++ [{ uri := node.location, taskfile := none }] } = g := by
          simpa [TaskfileGraph.AddVertex, hnew] using hv
        rcases hres : Reader.readNode env r st.eff node with ⟨eff2, res⟩
        have hl2 : eff2.loads = st.eff.loads ++ [node.location] := by
          have hx := readNode_loads env r st.eff node
          rw [hres] at hx
          simpa using hx
        have hnotin : node.location ∉ st.eff.loads := by
          intro hmem
          have hx := h.2 _ hmem
          simp [hasVertex, hnew] at hx
        have hnodup2 : eff2.loads.Nodup := by
          rw [hl2]
          simp [List.nodup_append, h.1, hnotin]
        have hmem2 : ∀ l ∈ eff2.loads, hasVertex g l = true := by
          intro l hm
          rw [hl2] at hm
          rw [← hg]
          rcases List.mem_append.mp hm with hm | hm
          · have hx := h.2 l hm
            unfold hasVertex at hx ⊢
            simp [List.any_append, hx]
          · have hx : l = node.location := by simpa using hm
            subst hx
            unfold hasVertex
            simp [List.any_append]
        cases res with
        | error e =>
          have hgoal : LoadsOnce { graph := g, eff := eff2 } := ⟨hnodup2, hmem2⟩
          simpa [runCall, hv, hres] using hgoal
        | ok pr =>
          rcases pr with ⟨tf, node2⟩
          have hst2 : LoadsOnce { graph := g.setTaskfile node.location tf, eff := eff2 } := by
            refine ⟨hnodup2, ?_⟩
            intro l hm
            have hx : hasVertex (TaskfileGraph.setTaskfile g node.location tf) l = true := by
              rw [hasVertex_setTaskfile]
              exact hmem2 l hm
            exact hx
          have hx := ih (.branches node2 tf tf.includes (.ok ())) _ hst2
          simpa [runCall, hv, hres] using hx
    | branches node tf incs acc =>
      cases incs with
      | nil => simpa [runCall] using h
      | cons p rest =>
        rcases p with ⟨nsp, inc⟩
        have h1 := ih (.branch node tf inc) st h
        have h2 := ih
          (.branches node tf rest (firstErr acc (runCall env r fuel (.branch node tf inc) st).2))
          _ h1
        simpa [runCall] using h2
    | branch node tf inc =>
      rcases hrep1 : templReplace env inc.taskfile
          { vars := mergeVars env.environ tf.vars, err := none } with ⟨tfl, cc1⟩
      rcases hrep2 : templReplace env inc.dir cc1 with ⟨dirl, cc2⟩
      cases herr : cc2.err with
      | some e => simpa [runCall, hrep1, hrep2, herr] using h
      | none =>
        cases hre : env.resolveEntrypoint node tfl with
        | error e => simpa [runCall, hrep1, hrep2, herr, hre] using h
        | ok ep =>
          cases hrd : env.resolveDir node dirl with
          | error e => simpa [runCall, hrep1, hrep2, herr, hre, hrd] using h
          | ok dir2 =>
            cases hnn : env.newNode ep dir2 node with
            | error e =>
              cases ho : inc.optional <;>
                simpa [runCall, hrep1, hrep2, herr, hre, hrd, hnn, ho] using h
            | ok inNode =>
              rcases hrec : runCall env r fuel (.inc inNode) st with ⟨st2, res2⟩
              have hx := ih (.inc inNode) st h
              rw [hrec] at hx
              cases res2 with
              | error e =>
                simpa [runCall, hrep1, hrep2, herr, hre, hrd, hnn, hrec] using hx
              | ok u =>
                have hgoal : LoadsOnce (RState.mk
                    (recordEdge st2.graph node.location inNode.location
                      { inc with taskfile := tfl, dir := dir2 }).1 st2.eff) := by
                  refine ⟨hx.1, ?_⟩
                  intro l hm
                  have hv2 : hasVertex (recordEdge st2.graph node.location inNode.location
                      { inc with taskfile := tfl, dir := dir2 }).1 l = true := by
                    rw [hasVertex_recordEdge]
                    exact hx.2 l hm
                  exact hv2
                simpa [runCall, hrep1, hrep2, herr, hre, hrd, hnn, hrec] using hgoal

/-- A default include directive pointing at a target location. -/
def incTo (tfl : String) : Include :=
  { nspace := "", taskfile := tfl, dir := "", optional := false, internal := false,
    flatten := false, aliases := [], advancedImport := false, vars := [] }

/-- A versioned Taskfile with the given includes and no tasks. -/
def tfWith (incs : List (String × Include)) : Taskfile :=
  { version := some "3", vars := [], tasks := [], includes := incs, location := "" }

/-- Parse oracle of the demo world: a diamond (A includes B and C, B and
C both include D), a double include (A2 includes B2 twice), a two-cycle
(X and Y include each other), and leaf documents everywhere else. -/
def demoParse : String → Except TaskErr Taskfile
  | "A" => .ok (tfWith [("b", incTo "B"), ("c", incTo "C")])
  | "B" => .ok (tfWith [("d", incTo "D")])
  | "C" => .ok (tfWith [("d", incTo "D")])
  | "A2" => .ok (tfWith [("x", incTo "B2"), ("y", incTo "B2")])
  | "X" => .ok (tfWith [("y", incTo "Y")])
  | "Y" => .ok (tfWith [("x", incTo "X")])
  | _ => .ok (tfWith [])

/-- Demo environment over local files whose content is their name:
identity substitution and resolution, no reachable network. -/
def demoEnv : Env :=
  { environ := [],
    subst := fun _ s => .ok s,
    resolveEntrypoint := fun _ s => .ok s,
    resolveDir := fun _ s => .ok s,
    newNode := fun ep _ _ => .ok (.FileNode ep),
    fetch := fun _ => .error (.other "unreachable"),
    readSrc := fun n => .ok { fileContent := n.location, fileDirectory := "dir" },
    parse := demoParse,
    chksum := fun s => s,
    promptAccept := fun _ => false }

/-- Default reader configuration of the demo world. -/
def demoReader : Reader :=
  { insecure := false, download := false, offline := false, timeout := 5, tempDir := "tmp" }

/-- The empty effect log. -/
def eff0 : Eff :=
  { fetches := 0, checksums := 0, prompts := [], loads := [], parses := 0,
    cache := { entries := [] } }

/-- The empty run state. -/
def st0 : RState :=
  { graph := { vertices := [], edges := [] }, eff := eff0 }

/-- Running the reader on the diamond root. -/
def diamondRun : RState × Except TaskErr Unit :=
  Reader.include' demoEnv demoReader 32 st0 (.FileNode "A")

/-- Running the reader on the double-include root. -/
def doubleRun : RState × Except TaskErr Unit :=
  Reader.include' demoEnv demoReader 32 st0 (.FileNode "A2")

/-- Running the reader on the cyclic root. -/
def cycleRun : RState × Except TaskErr Unit :=
  Reader.include' demoEnv demoReader 32 st0 (.FileNode "X")

example : diamondRun.2 = .ok () := by rfl
example : diamondRun.1.eff.loads = ["A", "B", "D", "C"] := by rfl
example : diamondRun.1.graph.vertices.map (fun v => v.uri) = ["A", "B", "D", "C"] := by rfl
example : diamondRun.1.graph.edges.map (fun e => (e.src, e.dst)) =
    [("B", "D"), ("A", "B"), ("C", "D"), ("A", "C")] := by rfl
example : doubleRun.1.graph.edges.map (fun e => (e.src, e.dst, e.data.length, e.weight)) =
    [("A2", "B2", 2, 2)] := by rfl
example : cycleRun.2 = .error (.cycle "X" "Y") := by rfl
example : cycleRun.1.graph.edges.map (fun e => (e.src, e.dst)) = [("Y", "X")] := by rfl

/-- C1: the reader processes each location at most once per run —
`include` first claims a vertex for the node's location and, when the
vertex already exists, returns success immediately without touching the
state (no load, no parse, no graph change); any run of `include`
preserves the invariant that the load log is duplicate-free with every
loaded location claimed in the graph; and on the diamond (A includes B
and C, B and C both include D) every distinct location is loaded exactly
once, D in particular. -/
theorem C1_dedup_at_most_once :
    (∀ (env : Env) (r : Reader) (fuel : Nat) (st : RState) (node : Node),
      hasVertex st.graph node.location = true →
      Reader.include' env r (fuel + 1) st node = (st, .ok ())) ∧
    (∀ (env : Env) (r : Reader) (fuel : Nat) (st : RState) (node : Node),
      LoadsOnce st → LoadsOnce (Reader.include' env r fuel st node).1) ∧
    diamondRun.2 = .ok () ∧
    diamondRun.1.eff.loads = ["A", "B", "D", "C"] ∧
    diamondRun.1.eff.loads.count "D" = 1 ∧
    diamondRun.1.graph.vertices.map (fun v => v.uri) = ["A", "B", "D", "C"] := by
  refine ⟨?_, ?_, by rfl, by rfl, by rfl, by rfl⟩
  · intro env r fuel st node h
    unfold hasVertex at h
    simp [Reader.include', runCall, TaskfileGraph.AddVertex, h]
  · intro env r fuel st node h
    exact runCall_loadsOnce env r fuel (.inc node) st h

/-- C1 witness: in the state produced by the diamond run, the vertex for
"A" exists, so a fresh `include` of A returns success immediately with
the state unchanged. -/
theorem C1_dedup_at_most_once_witness :
    (hasVertex diamondRun.1.graph (Node.location (.FileNode "A")) = true ∧
      Reader.include' demoEnv demoReader 5 diamondRun.1 (.FileNode "A") =
        (diamondRun.1, .ok ())) ∧
    LoadsOnce (Reader.include' demoEnv demoReader 32 st0 (.FileNode "A")).1 :=
  ⟨⟨by rfl,
    C1_dedup_at_most_once.1 demoEnv demoReader 4 diamondRun.1 (.FileNode "A") (by rfl)⟩,
   C1_dedup_at_most_once.2.1 demoEnv demoReader 32 st0 (.FileNode "A")
     ⟨List.nodup_nil, by simp [st0, eff0]⟩⟩

/-- Searching for an edge key commutes with rewriting the data and
weight of the matching edges. -/
lemma find?_edgeKey_update (src dst : String) (d : List Include) (w : Nat)
    (l : List TaskfileEdge) :
    (l.map (fun e => if edgeKey src dst e then { e with data := d, weight := w } else e)).find?
        (edgeKey src dst) =
      (l.find? (edgeKey src dst)).map
        (fun e => if edgeKey src dst e then { e with data := d, weight := w } else e) := by
  induction l with
  | nil => rfl
  | cons a l ih =>
    cases h : edgeKey src dst a
    · simp [List.find?, h, ih]
    · have h2 : edgeKey src dst { a with data := d, weight := w } = true := by
        simp [edgeKey] at h ⊢
        exact h
      simp [List.find?, h, h2]

/-- An absent edge key means no edge satisfies it. -/
lemma any_eq_false_of_find?_eq_none (l : List TaskfileEdge) (src dst : String)
    (hf : l.find? (edgeKey src dst) = none) : l.any (edgeKey src dst) = false := by
  cases ha : l.any (edgeKey src dst)
  · rfl
  · obtain ⟨x, hx, hp⟩ := List.any_eq_true.mp ha
    exact absurd hp (by simpa using List.find?_eq_none.mp hf x hx)

/-- A found edge means some edge satisfies the key. -/
lemma any_eq_true_of_find?_eq_some (l : List TaskfileEdge) (src dst : String)
    (e : TaskfileEdge) (hf : l.find? (edgeKey src dst) = some e) :
    l.any (edgeKey src dst) = true :=
  List.any_eq_true.mpr ⟨e, List.mem_of_find?_eq_some hf, List.find?_some hf⟩

/-- C2: a cycle-closing edge is never accepted — when no edge exists for
the pair and insertion would close a cycle, the edge step of `include`
fails with the dedicated cycle error naming both endpoints and leaves the
graph unchanged; a successful insertion implies no cycle was closed; and
merging into an existing edge never changes the set of (src, dst) pairs,
so it cannot create a cycle.  On the concrete two-cycle (X includes Y
includes X) the run fails with the cycle error naming X and Y and the
closing edge is absent from the graph. -/
theorem C2_cycle_rejected :
    (∀ (g : TaskfileGraph) (src dst : String) (inc : Include),
      g.Edge src dst = .error .edgeNotFound →
      createsCycle g.edges src dst = true →
      recordEdge g src dst inc = (g, .error (.cycle src dst))) ∧
    (∀ (g : TaskfileGraph) (src dst : String) (inc : Include) (g2 : TaskfileGraph),
      g.Edge src dst = .error .edgeNotFound →
      recordEdge g src dst inc = (g2, .ok ()) →
      createsCycle g.edges src dst = false) ∧
    (∀ (g : TaskfileGraph) (src dst : String) (inc : Include) (e : TaskfileEdge),
      g.Edge src dst = .ok e →
      (recordEdge g src dst inc).1.edges.map (fun x => (x.src, x.dst)) =
        g.edges.map (fun x => (x.src, x.dst))) ∧
    cycleRun.2 = .error (.cycle "X" "Y") ∧
    cycleRun.1.graph.edges.map (fun e => (e.src, e.dst)) = [("Y", "X")] := by
  refine ⟨?_, ?_, ?_, by rfl, by rfl⟩
  · intro g src dst inc h1 h2
    unfold TaskfileGraph.Edge at h1
    cases hf : g.edges.find? (edgeKey src dst) with
    | some e => rw [hf] at h1; exact absurd h1 (by simp)
    | none =>
      have ha := any_eq_false_of_find?_eq_none g.edges src dst hf
      simp [recordEdge, TaskfileGraph.Edge, hf, TaskfileGraph.AddEdge, ha, h2]
  · intro g src dst inc g2 h1 h2
    unfold TaskfileGraph.Edge at h1
    cases hf : g.edges.find? (edgeKey src dst) with
    | some e => rw [hf] at h1; exact absurd h1 (by simp)
    | none =>
      have ha := any_eq_false_of_find?_eq_none g.edges src dst hf
      cases hc : createsCycle g.edges src dst
      · rfl
      · simp [recordEdge, TaskfileGraph.Edge, hf, TaskfileGraph.AddEdge, ha, hc] at h2
  · intro g src dst inc e h1
    unfold TaskfileGraph.Edge at h1
    cases hf : g.edges.find? (edgeKey src dst) with
    | none => rw [hf] at h1; exact absurd h1 (by simp)
    | some e2 =>
      rw [hf] at h1
      have he : e2 = e := by simpa using h1
      subst he
      have ha := any_eq_true_of_find?_eq_some g.edges src dst e2 hf
      simp [recordEdge, TaskfileGraph.Edge, hf, TaskfileGraph.UpdateEdge, ha]
      intro a _
      split <;> simp

/-- C2 witness: with only the edge Y→X present, recording the edge X→Y
fails with the cycle error naming X and Y and the graph is unchanged. -/
theorem C2_cycle_rejected_witness :
    recordEdge { vertices := [], edges := [{ src := "Y", dst := "X", data := [], weight := 1 }] }
        "X" "Y" (incTo "Y") =
      ({ vertices := [], edges := [{ src := "Y", dst := "X", data := [], weight := 1 }] },
        .error (.cycle "X" "Y")) :=
  C2_cycle_rejected.1
    { vertices := [], edges := [{ src := "Y", dst := "X", data := [], weight := 1 }] }
    "X" "Y" (incTo "Y") (by rfl) (by rfl)

/-- C3: recording an include for a pair that already has an edge merges
rather than overwrites — the step succeeds, the single resulting edge
carries the existing Include list with the new Include appended and a
weight equal to that list's length, and the number of edges is unchanged;
concretely, two includes of one document resolving to the same target
yield one edge whose Include list has length 2. -/
theorem C3_edge_merge :
    (∀ (g : TaskfileGraph) (src dst : String) (inc : Include) (e : TaskfileEdge),
      g.Edge src dst = .ok e →
      (recordEdge g src dst inc).2 = .ok () ∧
      (recordEdge g src dst inc).1.Edge src dst =
        .ok { e with data := e.data ++ [inc], weight := (e.data ++ [inc]).length } ∧
      (recordEdge g src dst inc).1.edges.length = g.edges.length) ∧
    doubleRun.1.graph.edges.map (fun e => (e.src, e.dst, e.data.length, e.weight)) =
      [("A2", "B2", 2, 2)] ∧
    doubleRun.1.graph.edges.length = 1 := by
  refine ⟨?_, by rfl, by rfl⟩
  intro g src dst inc e h1
  unfold TaskfileGraph.Edge at h1
  cases hf : g.edges.find? (edgeKey src dst) with
  | none => rw [hf] at h1; exact absurd h1 (by simp)
  | some e2 =>
    rw [hf] at h1
    have he : e2 = e := by simpa using h1
    subst he
    have ha := any_eq_true_of_find?_eq_some g.edges src dst e2 hf
    have hkey : edgeKey src dst e2 = true := List.find?_some hf
    refine ⟨?_, ?_, ?_⟩
    · simp [recordEdge, TaskfileGraph.Edge, hf, TaskfileGraph.UpdateEdge, ha]
    · simp only [recordEdge, TaskfileGraph.Edge, hf, TaskfileGraph.UpdateEdge, ha,
        if_true]
      rw [find?_edgeKey_update src dst (e2.data ++ [inc]) (e2.data ++ [inc]).length g.edges,
        hf]
      simp [hkey]
    · simp [recordEdge, TaskfileGraph.Edge, hf, TaskfileGraph.UpdateEdge, ha]

/-- C3 witness: appending an include to the existing A→B edge carrying
one include yields the single merged edge of weight 2. -/
theorem C3_edge_merge_witness :
    (recordEdge { vertices := [], edges := [{ src := "A", dst := "B", data := [incTo "B"], weight := 1 }] }
        "A" "B" (incTo "B")).2 = .ok () ∧
    (recordEdge { vertices := [], edges := [{ src := "A", dst := "B", data := [incTo "B"], weight := 1 }] }
        "A" "B" (incTo "B")).1.Edge "A" "B" =
      .ok { src := "A", dst := "B", data := [incTo "B"] ++ [incTo "B"],
            weight := ([incTo "B"] ++ [incTo "B"]).length } ∧
    (recordEdge { vertices := [], edges := [{ src := "A", dst := "B", data := [incTo "B"], weight := 1 }] }
        "A" "B" (incTo "B")).1.edges.length =
      ({ vertices := [], edges := [{ src := "A", dst := "B", data := [incTo "B"], weight := 1 }] } :
        TaskfileGraph).edges.length :=
  C3_edge_merge.1
    { vertices := [], edges := [{ src := "A", dst := "B", data := [incTo "B"], weight := 1 }] }
    "A" "B" (incTo "B") { src := "A", dst := "B", data := [incTo "B"], weight := 1 } (by rfl)

/-- C4: when the checksum of freshly fetched content equals the cached
checksum, `loadNode` issues no trust prompt and performs no cache write —
it returns the fetched node, the effect log recording exactly one fetch
and one checksum computation, with prompts and cache untouched. -/
theorem C4_checksum_match_noop (env : Env) (r : Reader) (eff : Eff) (n : Node)
    (src : Source)
    (hrem : n.isRemote = true) (hoff : r.offline = false)
    (hfetch : env.fetch n = .ok src)
    (hne : cacheReadChecksum eff.cache n.location ≠ "")
    (hmatch : env.chksum src.fileContent = cacheReadChecksum eff.cache n.location) :
    Reader.loadNode env r eff n =
      ({ eff with fetches := eff.fetches + 1, checksums := eff.checksums + 1 }, .ok n) := by
  simp [Reader.loadNode, hrem, hoff, hfetch, hne, hmatch]

/-- Remote-world demo: every fetch of a node returns content equal to
the node's location. -/
def fetchEnv : Env :=
  { demoEnv with fetch := fun n => .ok { fileContent := n.location, fileDirectory := "dir" } }

/-- Remote-world demo: the cache already trusts source R with the
matching checksum. -/
def effR : Eff :=
  { eff0 with cache := { entries := [("R", { content := "R", checksum := "R" })] } }

/-- C4 witness: fetching source R whose checksum matches the cached one
returns the fetched node with cache and prompts untouched. -/
theorem C4_checksum_match_noop_witness :
    Reader.loadNode fetchEnv demoReader effR (.RemoteNode "R") =
      ({ effR with fetches := effR.fetches + 1, checksums := effR.checksums + 1 },
        .ok (.RemoteNode "R")) :=
  C4_checksum_match_noop fetchEnv demoReader effR (.RemoteNode "R")
    { fileContent := "R", fileDirectory := "dir" }
    (by rfl) (by rfl) (by rfl) (by decide) (by rfl)

/-- C5: when a trust prompt is issued (no prior checksum, or checksum
mismatch) and the user declines, `readNode` fails with the not-trusted
error naming the remote source's location, the fetched content is not
written to the cache (cache unchanged), not parsed (parse count
unchanged), and exactly one prompt was issued. -/
theorem C5_decline_not_trusted (env : Env) (r : Reader) (eff : Eff) (n : Node)
    (src : Source)
    (hrem : n.isRemote = true) (hoff : r.offline = false)
    (hfetch : env.fetch n = .ok src)
    (hprompted : cacheReadChecksum eff.cache n.location = "" ∨
      env.chksum src.fileContent ≠ cacheReadChecksum eff.cache n.location)
    (hdecl1 : env.promptAccept (taskfileUntrustedPrompt n.location) = false)
    (hdecl2 : env.promptAccept (taskfileChangedPrompt n.location) = false) :
    (Reader.readNode env r eff n).2 = .error (.notTrusted n.location) ∧
    (Reader.readNode env r eff n).1.cache = eff.cache ∧
    (Reader.readNode env r eff n).1.parses = eff.parses ∧
    (Reader.readNode env r eff n).1.prompts.length = eff.prompts.length + 1 := by
  by_cases hc : cacheReadChecksum eff.cache n.location = ""
  · simp [Reader.readNode, Reader.loadNode, hrem, hoff, hfetch, hc, hdecl1]
  · have hmis : env.chksum src.fileContent ≠ cacheReadChecksum eff.cache n.location :=
      hprompted.resolve_left hc
    simp [Reader.readNode, Reader.loadNode, hrem, hoff, hfetch, hc, hmis, hdecl2]

/-- Remote-world demo: a declining user. -/
def declineEnv : Env := fetchEnv

/-- C5 witness: source S has no cached checksum, the untrusted prompt is
declined, and `readNode` fails with the not-trusted error, leaving the
cache and parse count untouched and recording one prompt. -/
theorem C5_decline_not_trusted_witness :
    (Reader.readNode declineEnv demoReader eff0 (.RemoteNode "S")).2 =
      .error (.notTrusted "S") ∧
    (Reader.readNode declineEnv demoReader eff0 (.RemoteNode "S")).1.cache = eff0.cache ∧
    (Reader.readNode declineEnv demoReader eff0 (.RemoteNode "S")).1.parses = eff0.parses ∧
    (Reader.readNode declineEnv demoReader eff0 (.RemoteNode "S")).1.prompts.length =
      eff0.prompts.length + 1 :=
  C5_decline_not_trusted declineEnv demoReader eff0 (.RemoteNode "S")
    { fileContent := "S", fileDirectory := "dir" }
    (by rfl) (by rfl) (by rfl) (Or.inl (by rfl)) (by rfl) (by rfl)

/-- C6: in offline mode `loadNode` reads only from the cache — the fetch
counter never moves — and when no cache entry exists for the source it
fails with the cache-not-found error naming the source's location,
leaving the effect log untouched. -/
theorem C6_offline_cache_only (env : Env) (r : Reader) (eff : Eff) (n : Node)
    (hrem : n.isRemote = true) (hoff : r.offline = true) :
    (Reader.loadNode env r eff n).1.fetches = eff.fetches ∧
    (cacheRead eff.cache n.location = .error .notExist →
      Reader.loadNode env r eff n = (eff, .error (.cacheNotFound n.location))) := by
  constructor
  · cases hc : cacheRead eff.cache n.location with
    | error te => cases te <;> simp [Reader.loadNode, hrem, hoff, hc]
    | ok cached => simp [Reader.loadNode, hrem, hoff, hc]
  · intro hc
    simp [Reader.loadNode, hrem, hoff, hc]

/-- Offline reader configuration of the demo world. -/
def offlineReader : Reader := { demoReader with offline := true }

/-- C6 witness: offline with an empty cache, loading remote source Z
fails with the cache-not-found error and no fetch is attempted. -/
theorem C6_offline_cache_only_witness :
    (Reader.loadNode demoEnv offlineReader eff0 (.RemoteNode "Z")).1.fetches =
      eff0.fetches ∧
    Reader.loadNode demoEnv offlineReader eff0 (.RemoteNode "Z") =
      (eff0, .error (.cacheNotFound "Z")) := by
  have h := C6_offline_cache_only demoEnv offlineReader eff0 (.RemoteNode "Z")
    (by rfl) (by rfl)
  exact ⟨h.1, h.2 (by rfl)⟩

/-- C7: on a network-timeout fetch failure, a forced download fails
immediately with the network-timeout error (no cache fallback), an
absent cache entry fails with the network-timeout error flagged as
cache-checked, and — provided the node layer's timeout error carries the
configured timeout, as its contract states — every network-timeout error
`loadNode` returns reports the configured timeout value. -/
theorem C7_timeout_paths (env : Env) (r : Reader) (eff : Eff) (n : Node)
    (u : String) (t : Nat) (cc : Bool)
    (hrem : n.isRemote = true) (hoff : r.offline = false)
    (hfetch : env.fetch n = .error (.networkTimeout u t cc)) :
    (r.download = true →
      Reader.loadNode env r eff n =
        ({ eff with fetches := eff.fetches + 1 },
          .error (.networkTimeout n.location t false))) ∧
    (r.download = false → cacheRead eff.cache n.location = .error .notExist →
      Reader.loadNode env r eff n =
        ({ eff with fetches := eff.fetches + 1 },
          .error (.networkTimeout n.location r.timeout true))) ∧
    (t = r.timeout → ∀ (u2 : String) (t2 : Nat) (cc2 : Bool),
      (Reader.loadNode env r eff n).2 = .error (.networkTimeout u2 t2 cc2) →
      t2 = r.timeout) := by
  refine ⟨?_, ?_, ?_⟩
  · intro hdl
    simp [Reader.loadNode, hrem, hoff, hfetch, hdl]
  · intro hdl hc
    simp [Reader.loadNode, hrem, hoff, hfetch, hdl, hc]
  · intro ht u2 t2 cc2 hres
    cases hdl : r.download with
    | true =>
      simp [Reader.loadNode, hrem, hoff, hfetch, hdl] at hres
      omega
    | false =>
      cases hc : eff.cache.entries.find? (fun p => p.1 == n.location) with
      | some p =>
        simp [Reader.loadNode, hrem, hoff, hfetch, hdl, cacheRead, hc] at hres
      | none =>
        simp [Reader.loadNode, hrem, hoff, hfetch, hdl, cacheRead, hc] at hres
        omega

/-- Remote-world demo: every fetch times out with the configured
timeout. -/
def timeoutEnv : Env :=
  { demoEnv with fetch := fun n => .error (.networkTimeout n.location 5 false) }

/-- Forced-download reader configuration of the demo world. -/
def downloadReader : Reader := { demoReader with download := true }

/-- C7 witness: a timed-out fetch of W fails immediately under forced
download, and falls back to an empty cache with the cache-checked flag
otherwise, both errors reporting the configured timeout of 5. -/
theorem C7_timeout_paths_witness :
    Reader.loadNode timeoutEnv downloadReader eff0 (.RemoteNode "W") =
      ({ eff0 with fetches := eff0.fetches + 1 },
        .error (.networkTimeout "W" 5 false)) ∧
    Reader.loadNode timeoutEnv demoReader eff0 (.RemoteNode "W") =
      ({ eff0 with fetches := eff0.fetches + 1 },
        .error (.networkTimeout "W" demoReader.timeout true)) :=
  ⟨(C7_timeout_paths timeoutEnv downloadReader eff0 (.RemoteNode "W") "W" 5 false
      (by rfl) (by rfl) (by rfl)).1 (by rfl),
   (C7_timeout_paths timeoutEnv demoReader eff0 (.RemoteNode "W") "W" 5 false
      (by rfl) (by rfl) (by rfl)).2.1 (by rfl) (by rfl)⟩

/-- C10: on the timeout-fallback path (fetch times out, offline and
forced-download both unset, cache entry present) `loadNode` returns the
cached copy directly — no checksum is computed, no prompt is issued, no
cache write occurs: only the fetch counter moves. -/
theorem C10_timeout_fallback_bypasses_trust (env : Env) (r : Reader) (eff : Eff)
    (n : Node) (u : String) (t : Nat) (cc : Bool) (cnode : Node)
    (hrem : n.isRemote = true) (hoff : r.offline = false) (hdl : r.download = false)
    (hfetch : env.fetch n = .error (.networkTimeout u t cc))
    (hcache : cacheRead eff.cache n.location = .ok cnode) :
    Reader.loadNode env r eff n = ({ eff with fetches := eff.fetches + 1 }, .ok cnode) := by
  simp [Reader.loadNode, hrem, hoff, hdl, hfetch, hcache]

/-- C10 witness: with source R cached, a timed-out fetch returns the
cached copy with checksum counter, prompts and cache untouched. -/
theorem C10_timeout_fallback_bypasses_trust_witness :
    Reader.loadNode timeoutEnv demoReader effR (.RemoteNode "R") =
      ({ effR with fetches := effR.fetches + 1 },
        .ok (.CacheNode "R" { fileContent := "R", fileDirectory := "" })) :=
  C10_timeout_fallback_bypasses_trust timeoutEnv demoReader effR (.RemoteNode "R")
    "R" 5 false (.CacheNode "R" { fileContent := "R", fileDirectory := "" })
    (by rfl) (by rfl) (by rfl) (by rfl) (by rfl)

/-- C8: one include branch suppresses a failure exactly when the include
is optional and the failure occurs at child-node construction — the
branch then succeeds with the state (graph, effects) unchanged, so no
vertex or edge for the target is added; the same failure on a
non-optional include propagates; and failures at template substitution,
entrypoint resolution, directory resolution, or recursion propagate
whether or not the include is optional. -/
theorem C8_optional_only_at_construction :
    (∀ (env : Env) (r : Reader) (fuel : Nat) (st : RState) (node : Node) (tf : Taskfile)
        (inc : Include) (rep1 rep2 : String × TemplCache) (ep dir2 : String) (e : TaskErr),
      templReplace env inc.taskfile { vars := mergeVars env.environ tf.vars, err := none } = rep1 →
      templReplace env inc.dir rep1.2 = rep2 →
      rep2.2.err = none →
      env.resolveEntrypoint node rep1.1 = .ok ep →
      env.resolveDir node rep2.1 = .ok dir2 →
      env.newNode ep dir2 node = .error e →
      inc.optional = true →
      Reader.incBranch env r (fuel + 1) st node tf inc = (st, .ok ())) ∧
    (∀ (env : Env) (r : Reader) (fuel : Nat) (st : RState) (node : Node) (tf : Taskfile)
        (inc : Include) (rep1 rep2 : String × TemplCache) (ep dir2 : String) (e : TaskErr),
      templReplace env inc.taskfile { vars := mergeVars env.environ tf.vars, err := none } = rep1 →
      templReplace env inc.dir rep1.2 = rep2 →
      rep2.2.err = none →
      env.resolveEntrypoint node rep1.1 = .ok ep →
      env.resolveDir node rep2.1 = .ok dir2 →
      env.newNode ep dir2 node = .error e →
      inc.optional = false →
      Reader.incBranch env r (fuel + 1) st node tf inc = (st, .error e)) ∧
    (∀ (env : Env) (r : Reader) (fuel : Nat) (st : RState) (node : Node) (tf : Taskfile)
        (inc : Include) (rep1 rep2 : String × TemplCache) (e : TaskErr),
      templReplace env inc.taskfile { vars := mergeVars env.environ tf.vars, err := none } = rep1 →
      templReplace env inc.dir rep1.2 = rep2 →
      rep2.2.err = some e →
      Reader.incBranch env r (fuel + 1) st node tf inc = (st, .error e)) ∧
    (∀ (env : Env) (r : Reader) (fuel : Nat) (st : RState) (node : Node) (tf : Taskfile)
        (inc : Include) (rep1 rep2 : String × TemplCache) (e : TaskErr),
      templReplace env inc.taskfile { vars := mergeVars env.environ tf.vars, err := none } = rep1 →
      templReplace env inc.dir rep1.2 = rep2 →
      rep2.2.err = none →
      env.resolveEntrypoint node rep1.1 = .error e →
      Reader.incBranch env r (fuel + 1) st node tf inc = (st, .error e)) ∧
    (∀ (env : Env) (r : Reader) (fuel : Nat) (st : RState) (node : Node) (tf : Taskfile)
        (inc : Include) (rep1 rep2 : String × TemplCache) (ep : String) (e : TaskErr),
      templReplace env inc.taskfile { vars := mergeVars env.environ tf.vars, err := none } = rep1 →
      templReplace env inc.dir rep1.2 = rep2 →
      rep2.2.err = none →
      env.resolveEntrypoint node rep1.1 = .ok ep →
      env.resolveDir node rep2.1 = .error e →
      Reader.incBranch env r (fuel + 1) st node tf inc = (st, .error e)) ∧
    (∀ (env : Env) (r : Reader) (fuel : Nat) (st : RState) (node : Node) (tf : Taskfile)
        (inc : Include) (rep1 rep2 : String × TemplCache) (ep dir2 : String)
        (inNode : Node) (st2 : RState) (e : TaskErr),
      templReplace env inc.taskfile { vars := mergeVars env.environ tf.vars, err := none } = rep1 →
      templReplace env inc.dir rep1.2 = rep2 →
      rep2.2.err = none →
      env.resolveEntrypoint node rep1.1 = .ok ep →
      env.resolveDir node rep2.1 = .ok dir2 →
      env.newNode ep dir2 node = .ok inNode →
      Reader.include' env r fuel st inNode = (st2, .error e) →
      Reader.incBranch env r (fuel + 1) st node tf inc = (st2, .error e)) := by
  refine ⟨?_, ?_, ?_, ?_, ?_, ?_⟩
  · intro env r fuel st node tf inc rep1 rep2 ep dir2 e h1 h2 h3 h4 h5 h6 h7
    simp [Reader.incBranch, runCall, h1, h2, h3, h4, h5, h6, h7]
  · intro env r fuel st node tf inc rep1 rep2 ep dir2 e h1 h2 h3 h4 h5 h6 h7
    simp [Reader.incBranch, runCall, h1, h2, h3, h4, h5, h6, h7]
  · intro env r fuel st node tf inc rep1 rep2 e h1 h2 h3
    simp [Reader.incBranch, runCall, h1, h2, h3]
  · intro env r fuel st node tf inc rep1 rep2 e h1 h2 h3 h4
    simp [Reader.incBranch, runCall, h1, h2, h3, h4]
  · intro env r fuel st node tf inc rep1 rep2 ep e h1 h2 h3 h4 h5
    simp [Reader.incBranch, runCall, h1, h2, h3, h4, h5]
  · intro env r fuel st node tf inc rep1 rep2 ep dir2 inNode st2 e h1 h2 h3 h4 h5 h6 h7
    unfold Reader.include' at h7
    simp [Reader.incBranch, runCall, h1, h2, h3, h4, h5, h6, h7]

/-- Demo world in which child-node construction always fails. -/
def brokenNodeEnv : Env :=
  { demoEnv with newNode := fun _ _ _ => .error (.nodeErr "unreachable host") }

/-- The optional variant of the demo include of B. -/
def optInc : Include := { incTo "B" with optional := true }

/-- C8 witness: with child-node construction failing, the optional
include branch succeeds leaving the state untouched, while the same
include marked non-optional propagates the construction error. -/
theorem C8_optional_only_at_construction_witness :
    Reader.incBranch brokenNodeEnv demoReader 5 st0 (.FileNode "A") (tfWith []) optInc =
      (st0, .ok ()) ∧
    Reader.incBranch brokenNodeEnv demoReader 5 st0 (.FileNode "A") (tfWith []) (incTo "B") =
      (st0, .error (.nodeErr "unreachable host")) := by
  constructor
  · exact C8_optional_only_at_construction.1 brokenNodeEnv demoReader 4 st0 (.FileNode "A")
      (tfWith []) optInc _ _ "B" "" (.nodeErr "unreachable host") rfl rfl rfl rfl rfl rfl rfl
  · exact C8_optional_only_at_construction.2.1 brokenNodeEnv demoReader 4 st0 (.FileNode "A")
      (tfWith []) (incTo "B") _ _ "B" "" (.nodeErr "unreachable host") rfl rfl rfl rfl rfl rfl rfl

/-- C9: `readNode` stamps every task of a successfully parsed document
with the document's location and read directory, first write wins — each
origin field is written only when currently empty, an already-set value
is never overwritten, re-stamping an already-stamped task changes
nothing, and the successful result of `readNode` is exactly the parsed
document with every task so stamped. -/
theorem C9_stamp_first_write_wins :
    (∀ (loc dir : String) (t : Task),
      stampTask loc dir (some t) =
        some { location :=
          { taskfile := if t.location.taskfile = "" then loc else t.location.taskfile,
            taskfileDir :=
              if t.location.taskfileDir = "" then dir else t.location.taskfileDir } }) ∧
    (∀ (loc dir : String) (t : Task),
      t.location.taskfile ≠ "" → t.location.taskfileDir ≠ "" →
      stampTask loc dir (some t) = some t) ∧
    (∀ (loc dir loc2 dir2 : String) (t : Option Task),
      loc ≠ "" → dir ≠ "" →
      stampTask loc2 dir2 (stampTask loc dir t) = stampTask loc dir t) ∧
    (∀ (env : Env) (r : Reader) (eff eff1 : Eff) (n n2 : Node) (src : Source)
        (tf : Taskfile) (v : String),
      Reader.loadNode env r { eff with loads := eff.loads ++ [n.location] } n =
        (eff1, .ok n2) →
      nodeRead env n2 = .ok src →
      env.parse src.fileContent = .ok tf →
      tf.version = some v →
      (Reader.readNode env r eff n).2 =
        .ok (stampTaskfile tf n2.location src.fileDirectory, n2)) := by
  refine ⟨?_, ?_, ?_, ?_⟩
  · intro loc dir t
    unfold stampTask
    by_cases h1 : t.location.taskfile = "" <;>
      by_cases h2 : t.location.taskfileDir = "" <;>
        simp [h1, h2]
  · intro loc dir t h1 h2
    unfold stampTask
    simp [h1, h2]
  · intro loc dir loc2 dir2 t hl hd
    match t with
    | none => rfl
    | some t =>
      unfold stampTask
      by_cases h1 : t.location.taskfile = "" <;>
        by_cases h2 : t.location.taskfileDir = "" <;>
          simp [h1, h2, hl, hd]
  · intro env r eff eff1 n n2 src tf v h1 h2 h3 h4
    simp [Reader.readNode, h1, h2, h3, h4]

/-- C9 witness: an already-stamped task is never overwritten, and
stamping an already-stamped task a second time changes nothing. -/
theorem C9_stamp_first_write_wins_witness :
    stampTask "L" "D" (some { location := { taskfile := "x", taskfileDir := "y" } }) =
      some { location := { taskfile := "x", taskfileDir := "y" } } ∧
    stampTask "L2" "D2"
        (stampTask "L" "D" (some { location := { taskfile := "", taskfileDir := "" } })) =
      stampTask "L" "D" (some { location := { taskfile := "", taskfileDir := "" } }) :=
  ⟨C9_stamp_first_write_wins.2.1 "L" "D"
      { location := { taskfile := "x", taskfileDir := "y" } } (by decide) (by decide),
   C9_stamp_first_write_wins.2.2.1 "L" "D" "L2" "D2"
      (some { location := { taskfile := "", taskfileDir := "" } }) (by decide) (by decide)⟩
